import Mathlib

/-!
Verification of the estimate normalization and pricing pipeline of the
Gain-punter Express service (src/server.js, second endpoint variant at
lines 886-1010, and the flat-rate matcher of src/unnamed/part_002).

The JavaScript is shallowly embedded: JS numbers are rationals plus an
explicit NaN (floats are modelled exactly; toFixed/Math.round become
exact rational rounding), JS values are a small inductive covering the
shapes the pipeline manipulates, and a JS object is an association list
read and written through objGet/objSet.  Code that can throw returns an
Option, with none standing for a thrown TypeError.
-/

attribute [local semireducible] Rat.mul Rat.add Rat.sub Rat.inv Rat.ofScientific

/-- A JavaScript number: a rational, or NaN.  Infinities do not arise in
the fragment modelled here. -/
inductive JSNum where
  | nan : JSNum
  | num (q : ℚ) : JSNum
deriving DecidableEq, Repr

/-- JS multiplication on numbers: NaN propagates. -/
def jsMul : JSNum → JSNum → JSNum
  | JSNum.num a, JSNum.num b => JSNum.num (a * b)
  | _, _ => JSNum.nan

/-- JS addition on numbers: NaN propagates. -/
def jsAdd : JSNum → JSNum → JSNum
  | JSNum.num a, JSNum.num b => JSNum.num (a + b)
  | _, _ => JSNum.nan

/-- JS subtraction on numbers: NaN propagates. -/
def jsSub : JSNum → JSNum → JSNum
  | JSNum.num a, JSNum.num b => JSNum.num (a - b)
  | _, _ => JSNum.nan

/-- Division by 100, as in `shopSuppliesPercent / 100`. -/
def jsDiv100 : JSNum → JSNum
  | JSNum.num a => JSNum.num (a / 100)
  | JSNum.nan => JSNum.nan

/-- Rounding to the nearest integer, ties toward positive infinity:
the behaviour of `Math.round` on finite doubles. -/
def roundHalfUp (q : ℚ) : ℤ := Int.floor (q + 1 / 2)

/-- The `Math.round` of the source, lifted to JS numbers. -/
def jsRound : JSNum → JSNum
  | JSNum.num q => JSNum.num ((roundHalfUp q : ℤ) : ℚ)
  | JSNum.nan => JSNum.nan

/-- Two-decimal rounding: the value of `Number(x.toFixed(2))`, per the
ECMAScript toFixed rule (nearest hundredth, ties toward the larger
numerator). -/
def round2q (q : ℚ) : ℚ := ((roundHalfUp (100 * q) : ℤ) : ℚ) / 100

/-- The `Number((...).toFixed(2))` idiom of the source, on JS numbers;
NaN stays NaN. -/
def toFixed2 : JSNum → JSNum
  | JSNum.num q => JSNum.num (round2q q)
  | JSNum.nan => JSNum.nan

/-!  Decimal parsing, for ToNumber and parseFloat on strings.  The model
covers signed decimal literals with optional fraction and exponent; the
rarer forms (hex literals, the word Infinity) are folded into NaN. -/

/-- Numeric value of a list of decimal digit characters. -/
def digitsVal (ds : List Char) : ℕ := ds.foldl (fun a c => 10 * a + (c.toNat - 48)) 0

/-- Value of a digit list read as a fraction after the decimal point. -/
def fracVal (ds : List Char) : ℚ := (digitsVal ds : ℚ) / (10 : ℚ) ^ ds.length

/-- Parse an unsigned decimal mantissa (digits, with an optional point
and fraction digits) from the front of the input; returns the value and
the unconsumed rest. -/
def parseMantissa (cs : List Char) : Option (ℚ × List Char) :=
  let intDs := cs.takeWhile Char.isDigit
  let r1 := cs.dropWhile Char.isDigit
  match r1 with
  | '.' :: r2 =>
    let fr := r2.takeWhile Char.isDigit
    let r3 := r2.dropWhile Char.isDigit
    if intDs.isEmpty && fr.isEmpty then none
    else some ((digitsVal intDs : ℚ) + fracVal fr, r3)
  | _ => if intDs.isEmpty then none else some ((digitsVal intDs : ℚ), r1)

/-- Parse an optional exponent suffix (e or E, optional sign, digits);
when the digits are missing the suffix is not consumed, as in
parseFloat. -/
def parseExpSuffix (cs : List Char) : Option (ℤ × List Char) :=
  match cs with
  | 'e' :: '+' :: r | 'E' :: '+' :: r =>
    let ds := r.takeWhile Char.isDigit
    if ds.isEmpty then none else some ((digitsVal ds : ℤ), r.dropWhile Char.isDigit)
  | 'e' :: '-' :: r | 'E' :: '-' :: r =>
    let ds := r.takeWhile Char.isDigit
    if ds.isEmpty then none else some (-(digitsVal ds : ℤ), r.dropWhile Char.isDigit)
  | 'e' :: r | 'E' :: r =>
    let ds := r.takeWhile Char.isDigit
    if ds.isEmpty then none else some ((digitsVal ds : ℤ), r.dropWhile Char.isDigit)
  | _ => none

/-- Attach an optional exponent to a parsed mantissa value. -/
def withExpSuffix (q : ℚ) (rest : List Char) : ℚ × List Char :=
  match parseExpSuffix rest with
  | some (z, r2) => (q * (10 : ℚ) ^ z, r2)
  | none => (q, rest)

/-- Parse a signed decimal number from the front of the input. -/
def parseNumPre (cs : List Char) : Option (ℚ × List Char) :=
  match cs with
  | '+' :: r => (parseMantissa r).map (fun p => withExpSuffix p.1 p.2)
  | '-' :: r => (parseMantissa r).map (fun p => withExpSuffix (-p.1) p.2)
  | _ => (parseMantissa cs).map (fun p => withExpSuffix p.1 p.2)

/-- JS parseFloat on a string: skip leading whitespace, read the longest
numeric literal, ignore the rest; no literal means NaN. -/
def jsParseFloatStr (s : String) : JSNum :=
  match parseNumPre (s.data.dropWhile Char.isWhitespace) with
  | some (q, _) => JSNum.num q
  | none => JSNum.nan

/-- ECMAScript ToNumber on a string: trim, empty means 0, otherwise the
whole remainder must be one numeric literal. -/
def strToNumber (s : String) : JSNum :=
  let cs := ((s.data.dropWhile Char.isWhitespace).reverse.dropWhile Char.isWhitespace).reverse
  if cs.isEmpty then JSNum.num 0
  else
    match parseNumPre cs with
    | some (q, []) => JSNum.num q
    | _ => JSNum.nan

/-- A JavaScript value, covering the shapes the pipeline manipulates:
undefined, null, booleans, numbers, strings, arrays and plain objects
(association lists of fields in insertion order). -/
inductive JSVal where
  | undef : JSVal
  | jsNull : JSVal
  | boolean (b : Bool) : JSVal
  | number (n : JSNum) : JSVal
  | string (s : String) : JSVal
  | array (elems : List JSVal) : JSVal
  | object (fields : List (String × JSVal)) : JSVal

/-- A JS object body: fields in insertion order. -/
abbrev JSObj := List (String × JSVal)

/-- JS truthiness. -/
def truthy : JSVal → Bool
  | JSVal.undef => false
  | JSVal.jsNull => false
  | JSVal.boolean b => b
  | JSVal.number JSNum.nan => false
  | JSVal.number (JSNum.num q) => decide (q ≠ 0)
  | JSVal.string s => !s.isEmpty
  | JSVal.array _ => true
  | JSVal.object _ => true

/-- The JS `a || b` operator. -/
def jsOr (a b : JSVal) : JSVal := if truthy a then a else b

/-- The JS `a ?? b` operator: b exactly when a is undefined or null. -/
def jsNullish (a b : JSVal) : JSVal :=
  match a with
  | JSVal.undef => b
  | JSVal.jsNull => b
  | _ => a

/-- ECMAScript ToNumber on the value forms the pipeline meets.  Arrays
convert through their joined string form; singleton arrays of the common
element kinds are modelled directly, deeper nestings are folded into
NaN. -/
def toNumber : JSVal → JSNum
  | JSVal.undef => JSNum.nan
  | JSVal.jsNull => JSNum.num 0
  | JSVal.boolean b => JSNum.num (if b then 1 else 0)
  | JSVal.number n => n
  | JSVal.string s => strToNumber s
  | JSVal.array [] => JSNum.num 0
  | JSVal.array [JSVal.number n] => n
  | JSVal.array [JSVal.string s] => strToNumber s
  | JSVal.array [JSVal.undef] => JSNum.num 0
  | JSVal.array [JSVal.jsNull] => JSNum.num 0
  | JSVal.array _ => JSNum.nan
  | JSVal.object _ => JSNum.nan

/-- JS parseFloat applied to a value (the argument is stringified first;
numbers round-trip, an array contributes its first element up to the
first comma, other forms have no numeric prefix). -/
def jsParseFloat : JSVal → JSNum
  | JSVal.number n => n
  | JSVal.string s => jsParseFloatStr s
  | JSVal.array (JSVal.number n :: _) => n
  | JSVal.array (JSVal.string s :: _) => jsParseFloatStr s
  | _ => JSNum.nan

/-- Property read `v.k`: throws (none) on undefined and null, looks up
own fields on objects, and yields undefined on other primitives. -/
def jsMember : JSVal → String → Option JSVal
  | JSVal.undef, _ => none
  | JSVal.jsNull, _ => none
  | JSVal.object o, k => some (((o.find? (fun p => p.1 == k)).map Prod.snd).getD JSVal.undef)
  | _, _ => some JSVal.undef

/-- Field lookup on an object body (first occurrence; missing fields are
undefined). -/
def objGet : JSObj → String → JSVal
  | [], _ => JSVal.undef
  | (k, v) :: rest, key => if k = key then v else objGet rest key

/-- Field assignment `o.key = v`: overwrite the first occurrence in
place, or append a fresh field. -/
def objSet : JSObj → String → JSVal → JSObj
  | [], key, v => [(key, v)]
  | (k, w) :: rest, key, v =>
    if k = key then (k, v) :: rest else (k, w) :: objSet rest key v

/-- Whether an object body carries a field named k. -/
def keyMem (o : JSObj) (k : String) : Bool := o.any (fun p => p.1 == k)

/-!  The flat-rate matcher.  A table entry maps a job-name key to either
a single fixed labor-hour value or a min/max hour range.  JS objects
iterate their string keys in insertion order, so the tables are embedded
as lists in declaration order. -/

/-- A flat-rate table value: fixed hours, or an hour range. -/
inductive FlatHours where
  | fixed (h : ℚ) : FlatHours
  | range (mn mx : ℚ) : FlatHours
deriving DecidableEq, Repr

/-- ASCII lowercasing of one character, modelling the effect of JS
toLowerCase on the ASCII range. -/
def lowChar (c : Char) : Char :=
  if 'A' ≤ c && c ≤ 'Z' then Char.ofNat (c.toNat + 32) else c

/-- The `description.toLowerCase().trim()` of getFlatRate, as a
character list (trimming ASCII whitespace). -/
def lowTrim (s : String) : List Char :=
  (((s.data.map lowChar).dropWhile Char.isWhitespace).reverse.dropWhile Char.isWhitespace).reverse

/-- Bool test: does hay start with needle? -/
def leadMatch : List Char → List Char → Bool
  | [], _ => true
  | _ :: _, [] => false
  | c :: cs, d :: ds => c == d && leadMatch cs ds

/-- The JS `hay.includes(needle)` substring test. -/
def jsIncludes (hay needle : List Char) : Bool :=
  leadMatch needle hay ||
    (match hay with
     | [] => false
     | _ :: t => jsIncludes t needle)

/-- FLAT_RATES of src/server.js (lines 738-781), in declaration order. -/
def FLAT_RATES : List (String × FlatHours) := [
  ("oil change", FlatHours.fixed (1/2)), ("oil change basic", FlatHours.fixed (1/2)),
  ("oil change synthetic", FlatHours.fixed (1/2)),
  ("oil and filter", FlatHours.fixed (1/2)), ("oil change + rotation", FlatHours.fixed 1),
  ("tire rotation", FlatHours.fixed (1/2)),
  ("battery replacement", FlatHours.fixed (3/10)), ("battery install", FlatHours.fixed (3/10)),
  ("wiper blades", FlatHours.fixed (1/5)),
  ("air filter", FlatHours.fixed (3/10)), ("cabin filter", FlatHours.fixed (2/5)),
  ("brake fluid flush", FlatHours.fixed (3/4)), ("coolant flush", FlatHours.fixed 1),
  ("radiator flush", FlatHours.fixed 1),
  ("transmission fluid", FlatHours.fixed 1), ("power steering flush", FlatHours.fixed (1/2)),
  ("differential fluid", FlatHours.fixed (3/4)),
  ("thermostat", FlatHours.fixed 1), ("water pump", FlatHours.fixed (5/2)),
  ("water pump replacement", FlatHours.fixed (5/2)),
  ("radiator", FlatHours.range 2 (7/2)), ("radiator hose", FlatHours.fixed (1/2)),
  ("brake pads front", FlatHours.range (3/2) 2), ("brake pads rear", FlatHours.range (3/2) 2),
  ("brake pads and rotors front", FlatHours.range 2 (5/2)),
  ("brake pads and rotors rear", FlatHours.range 2 (5/2)),
  ("brake caliper", FlatHours.range 1 (3/2)),
  ("alternator", FlatHours.range (3/2) (7/2)), ("starter", FlatHours.range (3/2) (7/2)),
  ("spark plugs", FlatHours.range (3/4) 2), ("ignition coil", FlatHours.range (1/2) 1),
  ("serpentine belt", FlatHours.range (1/2) 1), ("timing belt", FlatHours.range 4 8),
  ("tie rod", FlatHours.range 1 (3/2)), ("ball joint", FlatHours.range (3/2) (5/2)),
  ("control arm", FlatHours.range (3/2) (5/2)), ("sway bar link", FlatHours.fixed (3/4)),
  ("shock absorber", FlatHours.range 1 (3/2)), ("strut", FlatHours.range (3/2) (5/2)),
  ("fuel pump", FlatHours.range 2 (7/2)), ("fuel filter", FlatHours.fixed (1/2)),
  ("fuel injector", FlatHours.range 1 2),
  ("muffler", FlatHours.range 1 (3/2)), ("catalytic converter", FlatHours.range (3/2) (5/2)),
  ("oxygen sensor", FlatHours.fixed (1/2)), ("o2 sensor", FlatHours.fixed (1/2)),
  ("headlight bulb", FlatHours.fixed (3/10)), ("window regulator", FlatHours.range (3/2) (5/2)),
  ("wheel bearing", FlatHours.range (3/2) (5/2))]

/-- FLAT_RATES of src/unnamed/part_002 (lines 85-132), in declaration
order. -/
def FLAT_RATES_p2 : List (String × FlatHours) := [
  ("oil change", FlatHours.fixed (1/2)), ("oil change basic", FlatHours.fixed (1/2)),
  ("oil change synthetic", FlatHours.fixed (1/2)),
  ("oil and filter", FlatHours.fixed (1/2)), ("oil change + rotation", FlatHours.fixed 1),
  ("oil change and tire rotation", FlatHours.fixed 1),
  ("tire rotation", FlatHours.fixed (1/2)), ("rotate tires", FlatHours.fixed (1/2)),
  ("battery replacement", FlatHours.fixed (3/10)), ("battery install", FlatHours.fixed (3/10)),
  ("replace battery", FlatHours.fixed (3/10)),
  ("wiper blades", FlatHours.fixed (1/5)), ("windshield wipers", FlatHours.fixed (1/5)),
  ("air filter", FlatHours.fixed (3/10)), ("engine air filter", FlatHours.fixed (3/10)),
  ("cabin filter", FlatHours.fixed (2/5)), ("cabin air filter", FlatHours.fixed (2/5)),
  ("brake fluid flush", FlatHours.fixed (3/4)), ("brake fluid change", FlatHours.fixed (3/4)),
  ("coolant flush", FlatHours.fixed 1), ("radiator flush", FlatHours.fixed 1),
  ("coolant change", FlatHours.fixed 1),
  ("transmission fluid", FlatHours.fixed 1), ("transmission fluid change", FlatHours.fixed 1),
  ("trans fluid", FlatHours.fixed 1),
  ("power steering flush", FlatHours.fixed (1/2)), ("power steering fluid", FlatHours.fixed (1/2)),
  ("differential fluid", FlatHours.fixed (3/4)), ("diff fluid", FlatHours.fixed (3/4)),
  ("thermostat", FlatHours.fixed 1), ("thermostat replacement", FlatHours.fixed 1),
  ("water pump", FlatHours.fixed (5/2)), ("water pump replacement", FlatHours.fixed (5/2)),
  ("coolant pump", FlatHours.fixed (5/2)),
  ("radiator", FlatHours.range 2 (7/2)), ("radiator replacement", FlatHours.range 2 (7/2)),
  ("radiator hose", FlatHours.fixed (1/2)), ("coolant hose", FlatHours.fixed (1/2)),
  ("brake pads front", FlatHours.range (3/2) 2), ("front brake pads", FlatHours.range (3/2) 2),
  ("front brakes", FlatHours.range (3/2) 2),
  ("brake pads rear", FlatHours.range (3/2) 2), ("rear brake pads", FlatHours.range (3/2) 2),
  ("rear brakes", FlatHours.range (3/2) 2),
  ("brake pads and rotors front", FlatHours.range 2 (5/2)),
  ("front brake pads and rotors", FlatHours.range 2 (5/2)),
  ("brake pads and rotors rear", FlatHours.range 2 (5/2)),
  ("rear brake pads and rotors", FlatHours.range 2 (5/2)),
  ("brake caliper", FlatHours.range 1 (3/2)), ("caliper replacement", FlatHours.range 1 (3/2)),
  ("alternator", FlatHours.range (3/2) (7/2)), ("alternator replacement", FlatHours.range (3/2) (7/2)),
  ("starter", FlatHours.range (3/2) (7/2)), ("starter motor", FlatHours.range (3/2) (7/2)),
  ("starter replacement", FlatHours.range (3/2) (7/2)),
  ("battery terminals", FlatHours.fixed (3/10)), ("battery terminal cleaning", FlatHours.fixed (3/10)),
  ("spark plugs", FlatHours.range (3/4) 2), ("spark plug replacement", FlatHours.range (3/4) 2),
  ("ignition coil", FlatHours.range (1/2) 1), ("coil pack", FlatHours.range (1/2) 1),
  ("serpentine belt", FlatHours.range (1/2) 1), ("drive belt", FlatHours.range (1/2) 1),
  ("accessory belt", FlatHours.range (1/2) 1),
  ("timing belt", FlatHours.range 4 8),
  ("belt tensioner", FlatHours.fixed (3/4)),
  ("tie rod end", FlatHours.range 1 (3/2)), ("tie rod", FlatHours.range 1 (3/2)),
  ("ball joint", FlatHours.range (3/2) (5/2)),
  ("control arm", FlatHours.range (3/2) (5/2)),
  ("sway bar link", FlatHours.fixed (3/4)), ("stabilizer link", FlatHours.fixed (3/4)),
  ("shock absorber", FlatHours.range 1 (3/2)),
  ("strut", FlatHours.range (3/2) (5/2)),
  ("fuel pump", FlatHours.range 2 (7/2)), ("fuel pump replacement", FlatHours.range 2 (7/2)),
  ("fuel filter", FlatHours.fixed (1/2)),
  ("fuel injector", FlatHours.range 1 2),
  ("muffler", FlatHours.range 1 (3/2)), ("muffler replacement", FlatHours.range 1 (3/2)),
  ("catalytic converter", FlatHours.range (3/2) (5/2)), ("cat converter", FlatHours.range (3/2) (5/2)),
  ("oxygen sensor", FlatHours.fixed (1/2)), ("o2 sensor", FlatHours.fixed (1/2)),
  ("headlight bulb", FlatHours.fixed (3/10)), ("headlight replacement", FlatHours.fixed (3/10)),
  ("taillight bulb", FlatHours.fixed (1/5)),
  ("door handle", FlatHours.fixed (3/4)),
  ("window regulator", FlatHours.range (3/2) (5/2)),
  ("wheel bearing", FlatHours.range (3/2) (5/2)), ("hub bearing", FlatHours.range (3/2) (5/2))]

/-- getFlatRate of the source, over a given table: lowercase and trim
the description, then return the first entry (in declaration order)
whose key occurs as a substring. -/
def getFlatRate (tbl : List (String × FlatHours)) (description : String) :
    Option (String × FlatHours) :=
  tbl.find? (fun en => jsIncludes (lowTrim description) en.1.data)

/-!  The estimate normalizer, src/server.js lines 929-945.  The parsed
AI reply is an arbitrary JSON object; the handler mutates it field by
field.  Each statement becomes one step; the part-mapping step can throw
(when `estimate.parts` is a truthy non-array, or an element is null or
undefined), so it returns an Option. -/

/-- Line 890: `const laborRate = parsed.laborRate || DEFAULT_LABOR_RATE`.
The zod schema admits any number or an absent field, so the caller rate
is an optional rational; a falsy (zero) rate falls back to the
default. -/
def resolveRate (callerRate : Option ℚ) (defaultRate : ℚ) : ℚ :=
  match callerRate with
  | some r => if r = 0 then defaultRate else r
  | none => defaultRate

/-- Line 929: `estimate.laborRate = laborRate`. -/
def step1 (o : JSObj) (r : ℚ) : JSObj :=
  objSet o "laborRate" (JSVal.number (JSNum.num r))

/-- Lines 932-935: force the labor hours when the flat-rate match is a
single fixed number. -/
def step2 (o : JSObj) (d : String) : JSObj :=
  match getFlatRate FLAT_RATES d with
  | some (_, FlatHours.fixed h) => objSet o "laborHours" (JSVal.number (JSNum.num h))
  | _ => o

/-- Line 937: `estimate.shopSuppliesPercent = estimate.shopSuppliesPercent ?? 7`. -/
def step3 (o : JSObj) : JSObj :=
  objSet o "shopSuppliesPercent"
    (jsNullish (objGet o "shopSuppliesPercent") (JSVal.number (JSNum.num 7)))

/-- Line 938: `estimate.laborHours = parseFloat(estimate.laborHours || 0)`. -/
def step4 (o : JSObj) : JSObj :=
  objSet o "laborHours"
    (JSVal.number (jsParseFloat (jsOr (objGet o "laborHours") (JSVal.number (JSNum.num 0)))))

/-- One part entry of lines 939-942:
`p => ({ name: p.name || 'Part', cost: Math.round(Number(p.cost || 0)) })`.
Property access on null or undefined throws. -/
def mapPart : JSVal → Option JSVal
  | JSVal.undef => none
  | JSVal.jsNull => none
  | JSVal.object o => some (JSVal.object [
      ("name", jsOr (objGet o "name") (JSVal.string "Part")),
      ("cost", JSVal.number (jsRound (toNumber (jsOr (objGet o "cost") (JSVal.number (JSNum.num 0))))))])
  | _ => some (JSVal.object [
      ("name", JSVal.string "Part"),
      ("cost", JSVal.number (JSNum.num 0))])

/-- Array.prototype.map with a throwing body. -/
def mapOpt (f : JSVal → Option JSVal) : List JSVal → Option (List JSVal)
  | [] => some []
  | x :: xs =>
    match f x with
    | some y => (mapOpt f xs).map (fun ys => y :: ys)
    | none => none

/-- Lines 939-942: `estimate.parts = (estimate.parts || []).map(...)`.
Calling .map on a truthy non-array throws. -/
def step5 (o : JSObj) : Option JSObj :=
  match jsOr (objGet o "parts") (JSVal.array []) with
  | JSVal.array xs => (mapOpt mapPart xs).map (fun ps => objSet o "parts" (JSVal.array ps))
  | _ => none

/-- Line 943: `estimate.tips = estimate.tips || []`. -/
def setTips (o : JSObj) : JSObj :=
  objSet o "tips" (jsOr (objGet o "tips") (JSVal.array []))

/-- Line 944: `estimate.warnings = estimate.warnings || []`. -/
def setWarnings (o : JSObj) : JSObj :=
  objSet o "warnings" (jsOr (objGet o "warnings") (JSVal.array []))

/-- Line 945: `estimate.workSteps = estimate.workSteps || []`. -/
def setWorkSteps (o : JSObj) : JSObj :=
  objSet o "workSteps" (jsOr (objGet o "workSteps") (JSVal.array []))

/-- Lines 943-945: default tips, warnings and workSteps to empty
arrays, in statement order. -/
def step6 (o : JSObj) : JSObj := setWorkSteps (setWarnings (setTips o))

/-- The normalization of lines 929-945 applied to the parsed AI estimate,
given the job description and the already-resolved labor rate. -/
def normalizeEstimate (est : JSObj) (description : String) (laborRate : ℚ) : Option JSObj :=
  (step5 (step4 (step3 (step2 (step1 est laborRate) description)))).map step6

/-- Lines 890 and 929-945 together: resolve the labor rate from the
caller and the default, then normalize. -/
def pipelineNormalize (est : JSObj) (description : String)
    (callerRate : Option ℚ) (defaultRate : ℚ) : Option JSObj :=
  normalizeEstimate est description (resolveRate callerRate defaultRate)

/-!  The pricing calculator, src/server.js lines 947-953. -/

/-- The derived monetary figures of lines 947-953. -/
structure Pricing where
  laborCost : JSNum
  partsCost : JSNum
  shopSupplies : JSNum
  subtotal : JSNum
  taxRate : ℚ
  recommendedTaxSetaside : JSNum
  netAfterTax : JSNum
deriving DecidableEq, Repr

/-- One reduce step of line 948: `s + Number(p.cost || 0)`; reading
`p.cost` throws on null and undefined elements. -/
def partCostTerm : JSVal → Option JSNum
  | JSVal.undef => none
  | JSVal.jsNull => none
  | JSVal.object o => some (toNumber (jsOr (objGet o "cost") (JSVal.number (JSNum.num 0))))
  | _ => some (JSNum.num 0)

/-- Line 948: `estimate.parts.reduce((s, p) => s + Number(p.cost || 0), 0)`. -/
def sumParts : List JSVal → JSNum → Option JSNum
  | [], acc => some acc
  | p :: rest, acc =>
    match partCostTerm p with
    | some t => sumParts rest (jsAdd acc t)
    | none => none

/-- Lines 947-953: labor cost, parts cost, shop supplies, subtotal and
the tax figures, each rounded to two decimals independently.  Calling
.reduce on a non-array parts field throws. -/
def priceEstimate (est : JSObj) : Option Pricing :=
  match objGet est "parts" with
  | JSVal.array xs =>
    (sumParts xs (JSNum.num 0)).map (fun partsCost =>
      let laborCost := toFixed2 (jsMul (toNumber (objGet est "laborHours"))
        (toNumber (objGet est "laborRate")))
      let shopSupplies := toFixed2 (jsMul partsCost
        (jsDiv100 (toNumber (objGet est "shopSuppliesPercent"))))
      let subtotal := toFixed2 (jsAdd (jsAdd laborCost partsCost) shopSupplies)
      let setaside := toFixed2 (jsMul subtotal (JSNum.num (28/100)))
      Pricing.mk laborCost partsCost shopSupplies subtotal 28 setaside
        (toFixed2 (jsSub subtotal setaside)))
  | _ => none

/-- Lines 999-1004: the response estimate
`{ ...estimate, laborCost, partsCost, shopSupplies, subtotal, taxRate,
recommendedTaxSetaside, netAfterTax }`. -/
def respEstimate (est : JSObj) (pr : Pricing) : JSObj :=
  objSet (objSet (objSet (objSet (objSet (objSet (objSet est
    "laborCost" (JSVal.number pr.laborCost))
    "partsCost" (JSVal.number pr.partsCost))
    "shopSupplies" (JSVal.number pr.shopSupplies))
    "subtotal" (JSVal.number pr.subtotal))
    "taxRate" (JSVal.number (JSNum.num pr.taxRate)))
    "recommendedTaxSetaside" (JSVal.number pr.recommendedTaxSetaside))
    "netAfterTax" (JSVal.number pr.netAfterTax)

/-- A value that is neither undefined nor null. -/
def notNullish (a : JSVal) : Prop := a ≠ JSVal.undef ∧ a ≠ JSVal.jsNull

/-- The object state after the scalar steps of the normalizer (lines
929-938), before the parts map. -/
def normPre (raw : JSObj) (d : String) (r : ℚ) : JSObj :=
  step4 (step3 (step2 (step1 raw r) d))

/-- A part object as built by the normalizer: a name value and a
rational cost. -/
def partObj (nm : JSVal) (q : ℚ) : JSVal :=
  JSVal.object [("name", nm), ("cost", JSVal.number (JSNum.num q))]

/-!  Basic laws of the object model. -/

theorem objGet_objSet (o : JSObj) (k key : String) (v : JSVal) :
    objGet (objSet o key v) k = if k = key then v else objGet o k := by
  induction o with
  | nil =>
    by_cases h : k = key
    · subst h; simp [objSet, objGet]
    · simp only [objSet, objGet]
      rw [if_neg (fun hh => h hh.symm), if_neg h]
  | cons a rest ih =>
    obtain ⟨ak, av⟩ := a
    simp only [objSet]
    by_cases h1 : ak = key
    · rw [if_pos h1]; subst h1
      simp only [objGet]
      by_cases h2 : ak = k
      · rw [if_pos h2, if_pos h2.symm]
      · rw [if_neg h2, if_neg (fun hh => h2 hh.symm), if_neg h2]
    · rw [if_neg h1]
      simp only [objGet]
      by_cases h2 : ak = k
      · rw [if_pos h2, if_neg (fun hh => h1 (h2.trans hh)), if_pos h2]
      · rw [if_neg h2, ih, if_neg h2]
  

theorem keyMem_objSet (o : JSObj) (k key : String) (v : JSVal) :
    keyMem (objSet o key v) k = (key == k || keyMem o k) := by
  induction o with
  | nil => simp [objSet, keyMem]
  | cons a rest ih =>
    obtain ⟨ak, av⟩ := a
    simp only [objSet]
    by_cases h1 : ak = key
    · subst h1
      rw [if_pos rfl]
      simp only [keyMem, List.any_cons] at *
      cases h2 : (ak == k) <;> simp [h2]
    · rw [if_neg h1]
      simp only [keyMem, List.any_cons] at *
      rw [ih]
      cases h2 : (ak == k) <;> cases h3 : (key == k) <;> simp [h2, h3]

theorem objSet_self (o : JSObj) (k : String) (v : JSVal)
    (hm : keyMem o k = true) (hv : objGet o k = v) : objSet o k v = o := by
  induction o with
  | nil => simp [keyMem] at hm
  | cons a rest ih =>
    obtain ⟨ak, av⟩ := a
    simp only [objSet]
    by_cases h1 : ak = k
    · rw [if_pos h1]
      simp only [objGet, if_pos h1] at hv
      rw [hv]
    · rw [if_neg h1]
      simp only [objGet, if_neg h1] at hv
      simp only [keyMem, List.any, Bool.or_eq_true] at hm
      rcases hm with hm | hm
      · exact absurd (by simpa using hm) h1
      · rw [ih hm hv]

/-!  Laws of the JS operators. -/

theorem jsOr_of_truthy (a b : JSVal) (h : truthy a = true) : jsOr a b = a := by
  simp [jsOr, h]

theorem jsOr_of_falsy (a b : JSVal) (h : truthy a = false) : jsOr a b = b := by
  simp [jsOr, h]

theorem truthy_jsOr (a b : JSVal) (hb : truthy b = true) : truthy (jsOr a b) = true := by
  cases h : truthy a <;> simp [jsOr, h, hb]

theorem jsOr_absorb (a b : JSVal) (hb : truthy b = true) : jsOr (jsOr a b) b = jsOr a b :=
  jsOr_of_truthy _ _ (truthy_jsOr a b hb)

theorem notNullish_jsNullish (a b : JSVal) (hb : notNullish b) :
    notNullish (jsNullish a b) := by
  cases a <;> simp only [jsNullish] <;> first
    | exact hb
    | exact ⟨(fun h => nomatch h), (fun h => nomatch h)⟩

theorem jsNullish_of_notNullish (a b : JSVal) (ha : notNullish a) : jsNullish a b = a := by
  cases a <;> first
    | exact absurd rfl ha.1
    | exact absurd rfl ha.2
    | rfl

theorem jsNullish_absorb (a b : JSVal) (hb : notNullish b) :
    jsNullish (jsNullish a b) b = jsNullish a b :=
  jsNullish_of_notNullish _ _ (notNullish_jsNullish a b hb)

/-!  First-match characterization of List.find?, used for the flat-rate
matcher. -/

theorem find_first_characterization {α : Type} (p : α → Bool) (l : List α) (a : α)
    (h : l.find? p = some a) :
    ∃ i : ℕ, ∃ hi : i < l.length,
      l.get ⟨i, hi⟩ = a ∧ p a = true ∧
      ∀ j : ℕ, ∀ hj : j < i, p (l.get ⟨j, Nat.lt_trans hj hi⟩) = false := by
  induction l with
  | nil => simp [List.find?] at h
  | cons x xs ih =>
    rw [List.find?] at h
    cases hp : p x with
    | true =>
      rw [hp] at h
      injection h with h
      subst h
      exact ⟨0, Nat.succ_pos _, rfl, hp, fun j hj => absurd hj (Nat.not_lt_zero j)⟩
    | false =>
      rw [hp] at h
      obtain ⟨i, hi, hget, hpa, hearlier⟩ := ih h
      refine ⟨i + 1, Nat.succ_lt_succ hi, hget, hpa, ?_⟩
      intro j hj
      match j with
      | 0 => exact hp
      | j + 1 => exact hearlier j (Nat.lt_of_succ_lt_succ hj)

/-!  Laws of mapOpt and the part mapper. -/

theorem mapOpt_total (f : JSVal → Option JSVal) (l : List JSVal)
    (h : ∀ x ∈ l, ∃ y, f x = some y) : ∃ ys, mapOpt f l = some ys := by
  induction l with
  | nil => exact ⟨[], rfl⟩
  | cons x xs ih =>
    obtain ⟨y, hy⟩ := h x (List.mem_cons_self x xs)
    obtain ⟨ys, hys⟩ := ih (fun z hz => h z (List.mem_cons_of_mem x hz))
    exact ⟨y :: ys, by simp [mapOpt, hy, hys]⟩

theorem mapOpt_fixpoint (f : JSVal → Option JSVal) (l : List JSVal)
    (h : ∀ x ∈ l, f x = some x) : mapOpt f l = some l := by
  induction l with
  | nil => rfl
  | cons x xs ih =>
    simp [mapOpt, h x (List.mem_cons_self x xs),
      ih (fun z hz => h z (List.mem_cons_of_mem x hz))]

theorem roundHalfUp_intCast (m : ℤ) : roundHalfUp ((m : ℚ)) = m := by
  unfold roundHalfUp
  rw [Int.floor_eq_iff]
  refine ⟨by norm_num, by norm_num⟩

theorem jsRound_int_or_nan (n : JSNum) :
    jsRound n = JSNum.nan ∨ ∃ m : ℤ, jsRound n = JSNum.num (m : ℚ) := by
  cases n with
  | nan => exact Or.inl rfl
  | num q => exact Or.inr ⟨roundHalfUp q, rfl⟩

theorem mapPart_shape (p q : JSVal) (h : mapPart p = some q) :
    ∃ nm c, q = JSVal.object [("name", nm), ("cost", JSVal.number c)] ∧
      truthy nm = true ∧ (c = JSNum.nan ∨ ∃ m : ℤ, c = JSNum.num (m : ℚ)) := by
  cases p with
  | undef => simp [mapPart] at h
  | jsNull => simp [mapPart] at h
  | object o =>
    simp only [mapPart] at h
    injection h with h
    refine ⟨_, _, h.symm, truthy_jsOr _ _ (by decide), ?_⟩
    exact jsRound_int_or_nan _
  | boolean b =>
    simp only [mapPart] at h
    injection h with h
    exact ⟨_, _, h.symm, by decide, Or.inr ⟨0, by norm_num⟩⟩
  | number n =>
    simp only [mapPart] at h
    injection h with h
    exact ⟨_, _, h.symm, by decide, Or.inr ⟨0, by norm_num⟩⟩
  | string s =>
    simp only [mapPart] at h
    injection h with h
    exact ⟨_, _, h.symm, by decide, Or.inr ⟨0, by norm_num⟩⟩
  | array xs =>
    simp only [mapPart] at h
    injection h with h
    exact ⟨_, _, h.symm, by decide, Or.inr ⟨0, by norm_num⟩⟩

theorem mapPart_fixpoint (nm : JSVal) (m : ℤ) (hnm : truthy nm = true) :
    mapPart (JSVal.object [("name", nm), ("cost", JSVal.number (JSNum.num (m : ℚ)))]) =
      some (JSVal.object [("name", nm), ("cost", JSVal.number (JSNum.num (m : ℚ)))]) := by
  simp only [mapPart]
  rw [show objGet [("name", nm), ("cost", JSVal.number (JSNum.num (m : ℚ)))] "name" = nm from rfl]
  rw [show objGet [("name", nm), ("cost", JSVal.number (JSNum.num (m : ℚ)))] "cost" =
    JSVal.number (JSNum.num (m : ℚ)) from rfl]
  rw [jsOr_of_truthy _ _ hnm]
  by_cases hm : (m : ℚ) = 0
  · rw [hm, jsOr_of_falsy _ _ (by simp [truthy])]
    simp only [toNumber, jsRound]
    have h0 : ((roundHalfUp (0 : ℚ) : ℤ) : ℚ) = (0 : ℚ) := by decide
    rw [h0]
  · rw [jsOr_of_truthy _ _ (by simp [truthy, hm])]
    simp only [toNumber, jsRound, roundHalfUp_intCast]

theorem mapOpt_mapPart_shape (xs ps : List JSVal) (h : mapOpt mapPart xs = some ps) :
    ∀ p ∈ ps, ∃ nm c, p = JSVal.object [("name", nm), ("cost", JSVal.number c)] ∧
      truthy nm = true ∧ (c = JSNum.nan ∨ ∃ m : ℤ, c = JSNum.num (m : ℚ)) := by
  induction xs generalizing ps with
  | nil =>
    simp only [mapOpt] at h
    injection h with h
    subst h
    intro p hp
    simp at hp
  | cons x xs ih =>
    simp only [mapOpt] at h
    cases hfx : mapPart x with
    | none => rw [hfx] at h; simp at h
    | some y =>
      rw [hfx] at h
      cases hrest : mapOpt mapPart xs with
      | none => rw [hrest] at h; simp at h
      | some ys =>
        rw [hrest] at h
        simp only [Option.map_some'] at h
        injection h with h
        subst h
        intro p hp
        rcases List.mem_cons.mp hp with rfl | hp
        · exact mapPart_shape x p hfx
        · exact ih ys hrest p hp

/-!  Characterization of the normalizer output, field by field. -/

theorem normalizeEstimate_eq (raw : JSObj) (d : String) (r : ℚ) :
    normalizeEstimate raw d r = (step5 (normPre raw d r)).map step6 := rfl

theorem normalizeEstimate_destruct (raw : JSObj) (d : String) (r : ℚ) (e : JSObj)
    (h : normalizeEstimate raw d r = some e) :
    ∃ xs ps,
      jsOr (objGet raw "parts") (JSVal.array []) = JSVal.array xs ∧
      mapOpt mapPart xs = some ps ∧
      e = step6 (objSet (normPre raw d r) "parts" (JSVal.array ps)) := by
  rw [normalizeEstimate_eq, Option.map_eq_some'] at h
  obtain ⟨o, ho, he⟩ := h
  unfold step5 at ho
  have hpre : objGet (normPre raw d r) "parts" = objGet raw "parts" := by
    unfold normPre step4 step3 step2 step1
    cases getFlatRate FLAT_RATES d with
    | none => simp [objGet_objSet]
    | some fr =>
      obtain ⟨k0, h0⟩ := fr
      cases h0 <;> simp [objGet_objSet]
  rw [hpre] at ho
  cases hj : jsOr (objGet raw "parts") (JSVal.array []) with
  | array xs =>
    rw [hj] at ho
    rw [Option.map_eq_some'] at ho
    obtain ⟨ps, hps, hobj⟩ := ho
    refine ⟨xs, ps, rfl, hps, ?_⟩
    rw [← he, ← hobj]
  | undef => rw [hj] at ho; cases ho
  | jsNull => rw [hj] at ho; cases ho
  | boolean b => rw [hj] at ho; cases ho
  | number n => rw [hj] at ho; cases ho
  | string s => rw [hj] at ho; cases ho
  | object o2 => rw [hj] at ho; cases ho

theorem objGet_step6_ne (o : JSObj) (k : String)
    (h1 : ¬ k = "tips") (h2 : ¬ k = "warnings") (h3 : ¬ k = "workSteps") :
    objGet (step6 o) k = objGet o k := by
  simp [step6, setTips, setWarnings, setWorkSteps, objGet_objSet, h1, h2, h3]

theorem objGet_step2_ne (o : JSObj) (d : String) (k : String) (h : ¬ k = "laborHours") :
    objGet (step2 o d) k = objGet o k := by
  unfold step2
  cases getFlatRate FLAT_RATES d with
  | none => rfl
  | some fr =>
    obtain ⟨k0, h0⟩ := fr
    cases h0 <;> simp [objGet_objSet, h]

/-- The labor rate forced at line 929 survives to the normalizer
output. -/
theorem normalized_laborRate (raw : JSObj) (d : String) (r : ℚ) (e : JSObj)
    (h : normalizeEstimate raw d r = some e) :
    objGet e "laborRate" = JSVal.number (JSNum.num r) := by
  obtain ⟨xs, ps, _, _, he⟩ := normalizeEstimate_destruct raw d r e h
  subst he
  rw [objGet_step6_ne _ _ (by simp) (by simp) (by simp)]
  rw [objGet_objSet]
  rw [if_neg (by simp)]
  unfold normPre step4 step3
  simp only [objGet_objSet]
  rw [if_neg (by simp), if_neg (by simp)]
  rw [objGet_step2_ne _ _ _ (by simp)]
  unfold step1
  rw [objGet_objSet, if_pos rfl]

/-- The shop-supplies percent in the normalizer output is the raw value
unless that was nullish, in which case it is 7. -/
theorem normalized_suppliesPercent (raw : JSObj) (d : String) (r : ℚ) (e : JSObj)
    (h : normalizeEstimate raw d r = some e) :
    objGet e "shopSuppliesPercent" =
      jsNullish (objGet raw "shopSuppliesPercent") (JSVal.number (JSNum.num 7)) := by
  obtain ⟨xs, ps, _, _, he⟩ := normalizeEstimate_destruct raw d r e h
  subst he
  rw [objGet_step6_ne _ _ (by simp) (by simp) (by simp)]
  rw [objGet_objSet, if_neg (by simp)]
  unfold normPre step4
  rw [objGet_objSet, if_neg (by simp)]
  unfold step3
  rw [objGet_objSet, if_pos rfl]
  rw [objGet_step2_ne _ _ _ (by simp)]
  unfold step1
  rw [objGet_objSet, if_neg (by simp)]

/-- When the flat-rate match is a fixed value, the normalized labor
hours are parseFloat of (that value || 0). -/
theorem normalized_laborHours_fixed (raw : JSObj) (d : String) (r : ℚ) (e : JSObj)
    (k0 : String) (h0 : ℚ)
    (hfr : getFlatRate FLAT_RATES d = some (k0, FlatHours.fixed h0))
    (h : normalizeEstimate raw d r = some e) :
    objGet e "laborHours" =
      JSVal.number (jsParseFloat (jsOr (JSVal.number (JSNum.num h0)) (JSVal.number (JSNum.num 0)))) := by
  obtain ⟨xs, ps, _, _, he⟩ := normalizeEstimate_destruct raw d r e h
  subst he
  rw [objGet_step6_ne _ _ (by simp) (by simp) (by simp)]
  rw [objGet_objSet, if_neg (by simp)]
  unfold normPre step4
  rw [objGet_objSet, if_pos rfl]
  unfold step3
  rw [objGet_objSet, if_neg (by simp)]
  unfold step2
  rw [hfr]
  rw [objGet_objSet, if_pos rfl]

/-- When the flat-rate match is not a fixed value, the normalized labor
hours are parseFloat of (the raw labor hours || 0). -/
theorem normalized_laborHours_unforced (raw : JSObj) (d : String) (r : ℚ) (e : JSObj)
    (hfr : ∀ k0 h0, ¬ getFlatRate FLAT_RATES d = some (k0, FlatHours.fixed h0))
    (h : normalizeEstimate raw d r = some e) :
    objGet e "laborHours" =
      JSVal.number (jsParseFloat (jsOr (objGet raw "laborHours") (JSVal.number (JSNum.num 0)))) := by
  obtain ⟨xs, ps, _, _, he⟩ := normalizeEstimate_destruct raw d r e h
  subst he
  rw [objGet_step6_ne _ _ (by simp) (by simp) (by simp)]
  rw [objGet_objSet, if_neg (by simp)]
  unfold normPre step4
  rw [objGet_objSet, if_pos rfl]
  unfold step3
  rw [objGet_objSet, if_neg (by simp)]
  have hstep2 : step2 (step1 raw r) d = step1 raw r := by
    unfold step2
    cases hg : getFlatRate FLAT_RATES d with
    | none => rfl
    | some fr =>
      obtain ⟨k0, h0⟩ := fr
      cases h0 with
      | fixed hh => exact absurd hg (hfr k0 hh)
      | range mn mx => rfl
  rw [hstep2]
  unfold step1
  rw [objGet_objSet, if_neg (by simp)]

/-- The parts field of the normalizer output is the mapped parts
array. -/
theorem normalized_parts (raw : JSObj) (d : String) (r : ℚ) (e : JSObj)
    (h : normalizeEstimate raw d r = some e) :
    ∃ xs ps, jsOr (objGet raw "parts") (JSVal.array []) = JSVal.array xs ∧
      mapOpt mapPart xs = some ps ∧ objGet e "parts" = JSVal.array ps := by
  obtain ⟨xs, ps, hxs, hps, he⟩ := normalizeEstimate_destruct raw d r e h
  subst he
  refine ⟨xs, ps, hxs, hps, ?_⟩
  rw [objGet_step6_ne _ _ (by simp) (by simp) (by simp)]
  rw [objGet_objSet, if_pos rfl]

/-!  Facts about the flat-rate tables. -/

/-- Every fixed hour value in the server.js table is nonzero (so it is
truthy and survives `parseFloat(hours || 0)` unchanged). -/
theorem FLAT_RATES_fixed_nonzero (k : String) (hh : ℚ)
    (hmem : (k, FlatHours.fixed hh) ∈ FLAT_RATES) : hh ≠ 0 := by
  have hall : FLAT_RATES.all
      (fun en => match en.2 with
        | FlatHours.fixed q => decide (q ≠ 0)
        | FlatHours.range _ _ => true) = true := by decide
  have hen := List.all_eq_true.mp hall _ hmem
  simpa using hen

/-- With a fixed nonzero flat-rate match, the normalized labor hours are
exactly the table value. -/
theorem normalized_laborHours_fixed_val (raw : JSObj) (d : String) (r : ℚ) (e : JSObj)
    (k0 : String) (h0 : ℚ)
    (hfr : getFlatRate FLAT_RATES d = some (k0, FlatHours.fixed h0))
    (h : normalizeEstimate raw d r = some e) :
    objGet e "laborHours" = JSVal.number (JSNum.num h0) := by
  have hne : h0 ≠ 0 :=
    FLAT_RATES_fixed_nonzero k0 h0 (List.mem_of_find?_eq_some hfr)
  rw [normalized_laborHours_fixed raw d r e k0 h0 hfr h]
  rw [jsOr_of_truthy _ _ (by simp [truthy, hne])]
  rfl

/-!  Arithmetic of the parts sum. -/

theorem toNumber_jsOr_num (q : ℚ) :
    toNumber (jsOr (JSVal.number (JSNum.num q)) (JSVal.number (JSNum.num 0))) = JSNum.num q := by
  by_cases hq : q = 0
  · subst hq; rfl
  · rw [jsOr_of_truthy _ _ (by simp [truthy, hq])]; rfl

theorem partCostTerm_partObj (nm : JSVal) (q : ℚ) :
    partCostTerm (partObj nm q) = some (JSNum.num q) := by
  simp only [partObj, partCostTerm]
  rw [show objGet [("name", nm), ("cost", JSVal.number (JSNum.num q))] "cost" =
    JSVal.number (JSNum.num q) from rfl]
  rw [toNumber_jsOr_num]

theorem sumParts_partObj (l : List (JSVal × ℚ)) (acc : ℚ) :
    sumParts (l.map (fun p => partObj p.1 p.2)) (JSNum.num acc) =
      some (JSNum.num (acc + (l.map Prod.snd).sum)) := by
  induction l generalizing acc with
  | nil => simp [sumParts]
  | cons p rest ih =>
    simp only [List.map_cons, sumParts, partCostTerm_partObj, jsAdd]
    rw [ih]
    simp [add_assoc]

theorem jsParseFloat_jsOr_num (q : ℚ) :
    jsParseFloat (jsOr (JSVal.number (JSNum.num q)) (JSVal.number (JSNum.num 0))) = JSNum.num q := by
  by_cases hq : q = 0
  · subst hq; rfl
  · rw [jsOr_of_truthy _ _ (by simp [truthy, hq])]; rfl

theorem objGet_step6_tips (o : JSObj) :
    objGet (step6 o) "tips" = jsOr (objGet o "tips") (JSVal.array []) := by
  simp [step6, setTips, setWarnings, setWorkSteps, objGet_objSet]

theorem objGet_step6_warnings (o : JSObj) :
    objGet (step6 o) "warnings" = jsOr (objGet o "warnings") (JSVal.array []) := by
  simp [step6, setTips, setWarnings, setWorkSteps, objGet_objSet]

theorem objGet_step6_workSteps (o : JSObj) :
    objGet (step6 o) "workSteps" = jsOr (objGet o "workSteps") (JSVal.array []) := by
  simp [step6, setTips, setWarnings, setWorkSteps, objGet_objSet]

theorem mapPart_partObj (nm : JSVal) (q : ℚ) (hnm : truthy nm = true) :
    mapPart (partObj nm q) = some (partObj nm ((roundHalfUp q : ℤ) : ℚ)) := by
  simp only [partObj, mapPart]
  rw [show objGet [("name", nm), ("cost", JSVal.number (JSNum.num q))] "name" = nm from rfl]
  rw [show objGet [("name", nm), ("cost", JSVal.number (JSNum.num q))] "cost" =
    JSVal.number (JSNum.num q) from rfl]
  rw [jsOr_of_truthy _ _ hnm, toNumber_jsOr_num]
  rfl

theorem mapOpt_mapPart_partObj (l : List (JSVal × ℚ)) (hnames : ∀ p ∈ l, truthy p.1 = true) :
    mapOpt mapPart (l.map (fun p => partObj p.1 p.2)) =
      some (l.map (fun p => partObj p.1 ((roundHalfUp p.2 : ℤ) : ℚ))) := by
  induction l with
  | nil => rfl
  | cons p rest ih =>
    simp only [List.map_cons, mapOpt]
    rw [mapPart_partObj _ _ (hnames p (List.mem_cons_self p rest))]
    rw [ih (fun z hz => hnames z (List.mem_cons_of_mem p hz))]
    rfl

theorem mapPart_total (x : JSVal) (h1 : ¬ x = JSVal.undef) (h2 : ¬ x = JSVal.jsNull) :
    ∃ y, mapPart x = some y := by
  cases x with
  | undef => exact absurd rfl h1
  | jsNull => exact absurd rfl h2
  | boolean b => exact ⟨_, rfl⟩
  | number n => exact ⟨_, rfl⟩
  | string s => exact ⟨_, rfl⟩
  | array xs => exact ⟨_, rfl⟩
  | object o => exact ⟨_, rfl⟩

theorem sumParts_total (ps : List JSVal)
    (h : ∀ p ∈ ps, ¬ p = JSVal.undef ∧ ¬ p = JSVal.jsNull) :
    ∀ acc, ∃ pc, sumParts ps acc = some pc := by
  induction ps with
  | nil => exact fun acc => ⟨acc, rfl⟩
  | cons p rest ih =>
    intro acc
    have hp := h p (List.mem_cons_self p rest)
    have hterm : ∃ t, partCostTerm p = some t := by
      cases p with
      | undef => exact absurd rfl hp.1
      | jsNull => exact absurd rfl hp.2
      | boolean b => exact ⟨_, rfl⟩
      | number n => exact ⟨_, rfl⟩
      | string s => exact ⟨_, rfl⟩
      | array xs => exact ⟨_, rfl⟩
      | object o => exact ⟨_, rfl⟩
    obtain ⟨t, ht⟩ := hterm
    obtain ⟨pc, hpc⟩ := ih (fun z hz => h z (List.mem_cons_of_mem p hz)) (jsAdd acc t)
    exact ⟨pc, by simp [sumParts, ht, hpc]⟩

theorem priceEstimate_of_parts (est : JSObj) (ps : List JSVal) (pc : JSNum)
    (hp : objGet est "parts" = JSVal.array ps) (hsum : sumParts ps (JSNum.num 0) = some pc) :
    ∃ pr, priceEstimate est = some pr ∧
      pr.laborCost = toFixed2 (jsMul (toNumber (objGet est "laborHours"))
        (toNumber (objGet est "laborRate"))) ∧
      pr.partsCost = pc ∧
      pr.shopSupplies = toFixed2 (jsMul pc
        (jsDiv100 (toNumber (objGet est "shopSuppliesPercent")))) ∧
      pr.subtotal = toFixed2 (jsAdd (jsAdd pr.laborCost pc) pr.shopSupplies) ∧
      pr.taxRate = 28 ∧
      pr.recommendedTaxSetaside = toFixed2 (jsMul pr.subtotal (JSNum.num (28 / 100))) ∧
      pr.netAfterTax = toFixed2 (jsSub pr.subtotal pr.recommendedTaxSetaside) := by
  have hpe : priceEstimate est = (sumParts ps (JSNum.num 0)).map (fun partsCost =>
      let laborCost := toFixed2 (jsMul (toNumber (objGet est "laborHours"))
        (toNumber (objGet est "laborRate")))
      let shopSupplies := toFixed2 (jsMul partsCost
        (jsDiv100 (toNumber (objGet est "shopSuppliesPercent"))))
      let subtotal := toFixed2 (jsAdd (jsAdd laborCost partsCost) shopSupplies)
      let setaside := toFixed2 (jsMul subtotal (JSNum.num (28 / 100)))
      Pricing.mk laborCost partsCost shopSupplies subtotal 28 setaside
        (toFixed2 (jsSub subtotal setaside))) := by
    unfold priceEstimate
    rw [hp]
  rw [hpe, hsum, Option.map_some']
  exact ⟨_, rfl, rfl, rfl, rfl, rfl, rfl, rfl, rfl⟩

/-!  Claim theorems. -/

/-- C3: the flat-rate matcher lower-cases and trims the description and
returns the first table entry, in declaration order, whose key is a
substring of it; when it returns nothing, no key matches.  On the
description "oil change and tire rotation" against the part_002 table,
which declares both "oil change" and the longer
"oil change and tire rotation", the earlier key "oil change" is
returned, not the longest match. -/
theorem c3_first_match_by_declaration_order :
    (∀ (tbl : List (String × FlatHours)) (d k : String) (hrs : FlatHours),
      getFlatRate tbl d = some (k, hrs) →
        ∃ i : ℕ, ∃ hi : i < tbl.length,
          tbl.get ⟨i, hi⟩ = (k, hrs) ∧
          jsIncludes (lowTrim d) k.data = true ∧
          ∀ j : ℕ, ∀ hj : j < i,
            jsIncludes (lowTrim d) (tbl.get ⟨j, Nat.lt_trans hj hi⟩).1.data = false) ∧
    (∀ (tbl : List (String × FlatHours)) (d : String),
      getFlatRate tbl d = none →
        ∀ en ∈ tbl, jsIncludes (lowTrim d) en.1.data = false) ∧
    ("oil change", FlatHours.fixed (1/2)) ∈ FLAT_RATES_p2 ∧
    ("oil change and tire rotation", FlatHours.fixed 1) ∈ FLAT_RATES_p2 ∧
    getFlatRate FLAT_RATES_p2 "oil change and tire rotation" =
      some ("oil change", FlatHours.fixed (1/2)) ∧
    ¬ ("oil change" : String) = "oil change and tire rotation" := by
  refine ⟨?_, ?_, by decide, by decide, by decide, by decide⟩
  · intro tbl d k hrs h
    obtain ⟨i, hi, hget, hpa, hearlier⟩ := find_first_characterization _ tbl (k, hrs) h
    exact ⟨i, hi, hget, hpa, hearlier⟩
  · intro tbl d h en hen
    have := List.find?_eq_none.mp h en hen
    simpa using this

/-- C3 witness: the first-match characterization instantiated on the
part_002 table and the overlapping description. -/
theorem c3_first_match_by_declaration_order_witness :
    ∃ i : ℕ, ∃ hi : i < FLAT_RATES_p2.length,
      FLAT_RATES_p2.get ⟨i, hi⟩ = ("oil change", FlatHours.fixed (1/2)) ∧
      jsIncludes (lowTrim "oil change and tire rotation") "oil change".data = true ∧
      ∀ j : ℕ, ∀ hj : j < i,
        jsIncludes (lowTrim "oil change and tire rotation")
          (FLAT_RATES_p2.get ⟨j, Nat.lt_trans hj hi⟩).1.data = false :=
  c3_first_match_by_declaration_order.1 FLAT_RATES_p2
    "oil change and tire rotation" "oil change" (FlatHours.fixed (1/2)) (by decide)

/-- C10: every key of the part_002 flat-rate table is nonempty and
already lowercase; the matcher result depends only on the lowercased,
trimmed description (so matching is case-insensitive in the
description), the empty description matches nothing, and any returned
key is a substring of the lowercased trimmed description. -/
theorem c10_table_invariants :
    (FLAT_RATES_p2.all (fun en => !(en.1.isEmpty) && en.1.data.all (fun c => lowChar c == c))
      = true) ∧
    (∀ d1 d2 : String, lowTrim d1 = lowTrim d2 →
      getFlatRate FLAT_RATES_p2 d1 = getFlatRate FLAT_RATES_p2 d2) ∧
    (getFlatRate FLAT_RATES_p2 "OIL CHANGE" = getFlatRate FLAT_RATES_p2 "oil change") ∧
    (getFlatRate FLAT_RATES_p2 "" = none) ∧
    (∀ (d k : String) (hrs : FlatHours),
      getFlatRate FLAT_RATES_p2 d = some (k, hrs) →
      jsIncludes (lowTrim d) k.data = true) := by
  have hdep : ∀ d1 d2 : String, lowTrim d1 = lowTrim d2 →
      getFlatRate FLAT_RATES_p2 d1 = getFlatRate FLAT_RATES_p2 d2 := by
    intro d1 d2 h
    unfold getFlatRate
    rw [h]
  refine ⟨by decide, hdep, hdep _ _ (by decide), by decide, ?_⟩
  intro d k hrs h
  have := List.find?_some h
  simpa using this

/-- C10 witness: case-insensitivity and the substring property at
concrete descriptions. -/
theorem c10_table_invariants_witness :
    getFlatRate FLAT_RATES_p2 "Oil Change " = getFlatRate FLAT_RATES_p2 "oil change" ∧
    jsIncludes (lowTrim "oil change today") "oil change".data = true :=
  ⟨c10_table_invariants.2.1 "Oil Change " "oil change" (by decide),
   c10_table_invariants.2.2.2.2 "oil change today" "oil change" (FlatHours.fixed (1/2))
     (by decide)⟩

/-- C7: the normalized shopSuppliesPercent keeps any non-nullish raw
value, including an explicit 0, and falls back to the default 7 exactly
when the raw value is absent (undefined or null). -/
theorem c7_supplies_percent_kept (raw : JSObj) (d : String) (r : ℚ) (e : JSObj)
    (h : normalizeEstimate raw d r = some e) :
    objGet e "shopSuppliesPercent" =
      jsNullish (objGet raw "shopSuppliesPercent") (JSVal.number (JSNum.num 7)) ∧
    (notNullish (objGet raw "shopSuppliesPercent") →
      objGet e "shopSuppliesPercent" = objGet raw "shopSuppliesPercent") ∧
    (objGet raw "shopSuppliesPercent" = JSVal.number (JSNum.num 0) →
      objGet e "shopSuppliesPercent" = JSVal.number (JSNum.num 0)) ∧
    ((objGet raw "shopSuppliesPercent" = JSVal.undef ∨
      objGet raw "shopSuppliesPercent" = JSVal.jsNull) →
      objGet e "shopSuppliesPercent" = JSVal.number (JSNum.num 7)) := by
  have hmain := normalized_suppliesPercent raw d r e h
  refine ⟨hmain, ?_, ?_, ?_⟩
  · intro hnn
    rw [hmain, jsNullish_of_notNullish _ _ hnn]
  · intro h0
    rw [hmain, h0]
    rfl
  · intro habs
    rcases habs with habs | habs <;> rw [hmain, habs] <;> rfl

/-- C7 witness: an explicit raw 0 percent survives normalization. -/
theorem c7_supplies_percent_kept_witness :
    ∃ e, normalizeEstimate [("shopSuppliesPercent", JSVal.number (JSNum.num 0))]
        "zz custom work" 65 = some e ∧
      objGet e "shopSuppliesPercent" = JSVal.number (JSNum.num 0) := by
  refine ⟨_, rfl, ?_⟩
  exact (c7_supplies_percent_kept [("shopSuppliesPercent", JSVal.number (JSNum.num 0))]
    "zz custom work" 65 _ rfl).2.2.1 rfl

/-- C2: when the flat-rate matcher yields a single fixed hour value for
the description, the normalized laborHours is exactly that value no
matter what the raw estimate carried; when it yields a range, the parsed
raw hours are kept.  For "oil change" with caller rate 80, laborHours is
exactly 1/2 and laborCost is 40. -/
theorem c2_flat_rate_fixed_override :
    (∀ (raw : JSObj) (d : String) (r : ℚ) (e : JSObj) (k0 : String) (h0 : ℚ),
      getFlatRate FLAT_RATES d = some (k0, FlatHours.fixed h0) →
      normalizeEstimate raw d r = some e →
      objGet e "laborHours" = JSVal.number (JSNum.num h0)) ∧
    (∀ (raw : JSObj) (d : String) (r : ℚ) (e : JSObj) (k0 : String) (mn mx : ℚ),
      getFlatRate FLAT_RATES d = some (k0, FlatHours.range mn mx) →
      normalizeEstimate raw d r = some e →
      objGet e "laborHours" =
        JSVal.number (jsParseFloat (jsOr (objGet raw "laborHours") (JSVal.number (JSNum.num 0))))) ∧
    (getFlatRate FLAT_RATES "oil change" = some ("oil change", FlatHours.fixed (1/2))) ∧
    (∀ (raw : JSObj) (e : JSObj),
      normalizeEstimate raw "oil change" (resolveRate (some 80) 65) = some e →
      objGet e "laborHours" = JSVal.number (JSNum.num (1/2)) ∧
      ∃ pr, priceEstimate e = some pr ∧ pr.laborCost = JSNum.num 40) := by
  refine ⟨?_, ?_, by decide, ?_⟩
  · exact fun raw d r e k0 h0 hfr h => normalized_laborHours_fixed_val raw d r e k0 h0 hfr h
  · intro raw d r e k0 mn mx hfr h
    refine normalized_laborHours_unforced raw d r e ?_ h
    intro k0' h0' heq
    rw [hfr] at heq
    simp at heq
  · intro raw e h
    have h5 : resolveRate (some 80) 65 = 80 := by norm_num [resolveRate]
    have hh : objGet e "laborHours" = JSVal.number (JSNum.num (1/2)) :=
      normalized_laborHours_fixed_val raw _ _ e "oil change" (1/2) (by decide) h
    have hr := normalized_laborRate raw _ _ e h
    obtain ⟨xs, ps, hxs, hps, hparr⟩ := normalized_parts raw _ _ e h
    have hels : ∀ p ∈ ps, ¬ p = JSVal.undef ∧ ¬ p = JSVal.jsNull := by
      intro p hp
      obtain ⟨nm, c, hshape, -, -⟩ := mapOpt_mapPart_shape xs ps hps p hp
      subst hshape
      exact ⟨(fun hc => nomatch hc), (fun hc => nomatch hc)⟩
    obtain ⟨pc, hpc⟩ := sumParts_total ps hels (JSNum.num 0)
    obtain ⟨pr, hpr, hlc, -, -, -, -, -, -⟩ := priceEstimate_of_parts e ps pc hparr hpc
    refine ⟨hh, pr, hpr, ?_⟩
    rw [hlc, hh, hr, h5]
    decide

/-- C2 witness: raw hours 7 are overridden to 1/2 for "oil change" at a
caller rate of 80, and labor cost comes out as 40. -/
theorem c2_flat_rate_fixed_override_witness :
    ∃ e, normalizeEstimate [("laborHours", JSVal.number (JSNum.num 7))] "oil change"
        (resolveRate (some 80) 65) = some e ∧
      (objGet e "laborHours" = JSVal.number (JSNum.num (1/2)) ∧
        ∃ pr, priceEstimate e = some pr ∧ pr.laborCost = JSNum.num 40) := by
  refine ⟨_, rfl, ?_⟩
  exact c2_flat_rate_fixed_override.2.2.2
    [("laborHours", JSVal.number (JSNum.num 7))] _ rfl

/-- C1: on a normalized estimate with numeric hours, rate and percent
and whole-dollar (integer-rounded) parts, the pricer computes
laborCost = round2(hours * rate), partsCost as the exact unrounded sum
of the part costs, shopSupplies = round2(partsCost * percent / 100), and
subtotal = round2 of the sum of the three already-rounded terms; and
there is a pipeline input on which this per-term rounding differs from
rounding the unrounded expression once. -/
theorem c1_pricing_per_term_rounding :
    (∀ (raw : JSObj) (d : String) (r : ℚ) (e : JSObj) (hq rq sq : ℚ)
      (l : List (JSVal × ℚ)),
      normalizeEstimate raw d r = some e →
      objGet e "laborHours" = JSVal.number (JSNum.num hq) →
      objGet e "laborRate" = JSVal.number (JSNum.num rq) →
      objGet e "shopSuppliesPercent" = JSVal.number (JSNum.num sq) →
      objGet e "parts" = JSVal.array (l.map (fun p => partObj p.1 p.2)) →
      ∃ pr, priceEstimate e = some pr ∧
        pr.laborCost = JSNum.num (round2q (hq * rq)) ∧
        pr.partsCost = JSNum.num ((l.map Prod.snd).sum) ∧
        pr.shopSupplies = JSNum.num (round2q ((l.map Prod.snd).sum * (sq / 100))) ∧
        pr.subtotal = JSNum.num (round2q (round2q (hq * rq) + (l.map Prod.snd).sum +
          round2q ((l.map Prod.snd).sum * (sq / 100))))) ∧
    (∃ (e : JSObj) (pr : Pricing),
      normalizeEstimate
        [("laborHours", JSVal.number (JSNum.num (1/200))),
         ("shopSuppliesPercent", JSVal.number (JSNum.num (1/2))),
         ("parts", JSVal.array [partObj (JSVal.string "P") 1])]
        "zz custom work" 1 = some e ∧
      priceEstimate e = some pr ∧
      pr.subtotal = JSNum.num (51/50) ∧
      ¬ JSNum.num (51/50) =
        JSNum.num (round2q ((1/200) * 1 + 1 + 1 * ((1/2) / 100)))) := by
  constructor
  · intro raw d r e hq rq sq l hn hh hr hs hp
    have hsum := sumParts_partObj l 0
    obtain ⟨pr, hpr, hlc, hpc, hss, hst, -, -, -⟩ :=
      priceEstimate_of_parts e _ _ hp hsum
    have hlc' : pr.laborCost = JSNum.num (round2q (hq * rq)) := by
      rw [hlc, hh, hr]
      rfl
    have hpc' : pr.partsCost = JSNum.num ((l.map Prod.snd).sum) := by
      rw [hpc]
      norm_num
    have hss' : pr.shopSupplies =
        JSNum.num (round2q ((l.map Prod.snd).sum * (sq / 100))) := by
      rw [hss, hs]
      simp [jsMul, jsDiv100, toFixed2, toNumber]
    refine ⟨pr, hpr, hlc', hpc', hss', ?_⟩
    rw [hst, hlc', hss']
    simp [jsAdd, toFixed2]
  · refine ⟨_, _, rfl, rfl, by decide, by decide⟩

/-- C1 witness: the pricing formulas instantiated on a concrete
normalized estimate (hours 2, rate 65, percent 7, parts 80 and 140). -/
theorem c1_pricing_per_term_rounding_witness :
    ∃ pr, priceEstimate ((normalizeEstimate
        [("laborHours", JSVal.number (JSNum.num 2)),
         ("shopSuppliesPercent", JSVal.number (JSNum.num 7)),
         ("parts", JSVal.array [partObj (JSVal.string "A") 80, partObj (JSVal.string "B") 140])]
        "zz custom work" 65).getD []) = some pr ∧
      pr.laborCost = JSNum.num (round2q (2 * 65)) ∧
      pr.partsCost = JSNum.num (([(JSVal.string "A", (80 : ℚ)), (JSVal.string "B", 140)].map
        Prod.snd).sum) ∧
      pr.shopSupplies = JSNum.num (round2q ((([(JSVal.string "A", (80 : ℚ)),
        (JSVal.string "B", 140)].map Prod.snd).sum * ((7 : ℚ) / 100))) ) ∧
      pr.subtotal = JSNum.num (round2q (round2q (2 * 65) +
        ([(JSVal.string "A", (80 : ℚ)), (JSVal.string "B", 140)].map Prod.snd).sum +
        round2q ((([(JSVal.string "A", (80 : ℚ)), (JSVal.string "B", 140)].map
          Prod.snd).sum * ((7 : ℚ) / 100))))) := by
  exact c1_pricing_per_term_rounding.1
    [("laborHours", JSVal.number (JSNum.num 2)),
     ("shopSuppliesPercent", JSVal.number (JSNum.num 7)),
     ("parts", JSVal.array [partObj (JSVal.string "A") 80, partObj (JSVal.string "B") 140])]
    "zz custom work" 65 _ 2 65 7
    [(JSVal.string "A", (80 : ℚ)), (JSVal.string "B", 140)]
    rfl rfl rfl rfl rfl

/-- C4 counterexample: the claimed precedence fails on the code.  With
no caller rate, a raw laborRate of 100 and default 65, the normalized
laborRate is 65, not the raw 100 the claim's middle precedence level
requires; and a negative caller rate -50 (not > 0) is used rather than
falling through to the default. -/
theorem c4_rate_precedence_counterexample :
    (∃ e, pipelineNormalize
        [("laborRate", JSVal.number (JSNum.num 100)), ("laborHours", JSVal.number (JSNum.num 2))]
        "zz custom work" none 65 = some e ∧
      objGet e "laborRate" = JSVal.number (JSNum.num 65) ∧
      ¬ (JSNum.num (65 : ℚ)) = JSNum.num 100) ∧
    (∃ e2, pipelineNormalize [] "zz custom work" (some (-50)) 65 = some e2 ∧
      objGet e2 "laborRate" = JSVal.number (JSNum.num (-50)) ∧
      ¬ (JSNum.num (-50 : ℚ)) = JSNum.num 65) := by
  constructor
  · exact ⟨_, rfl, rfl, by decide⟩
  · exact ⟨_, rfl, rfl, by decide⟩

/-- C4 amended: the normalized laborRate is the caller-supplied rate
whenever that is provided and nonzero (even negative), and the default
rate otherwise; the raw estimate's laborRate is never consulted, and the
value is never re-derived from the text-generation output. -/
theorem c4_rate_precedence_amended (caller : Option ℚ) (defaultRate : ℚ) (raw : JSObj)
    (d : String) (e : JSObj)
    (h : pipelineNormalize raw d caller defaultRate = some e) :
    objGet e "laborRate" = JSVal.number (JSNum.num (resolveRate caller defaultRate)) ∧
    (caller = none → objGet e "laborRate" = JSVal.number (JSNum.num defaultRate)) ∧
    (∀ rr : ℚ, caller = some rr → ¬ rr = 0 →
      objGet e "laborRate" = JSVal.number (JSNum.num rr)) ∧
    (caller = some 0 → objGet e "laborRate" = JSVal.number (JSNum.num defaultRate)) := by
  have hmain := normalized_laborRate raw d (resolveRate caller defaultRate) e h
  refine ⟨hmain, ?_, ?_, ?_⟩
  · intro hc; subst hc; exact hmain
  · intro rr hc hrr
    subst hc
    rw [hmain]
    simp [resolveRate, hrr]
  · intro hc
    subst hc
    rw [hmain]
    simp [resolveRate]

/-- C4 amended witness: a caller rate of 80 is used as is. -/
theorem c4_rate_precedence_amended_witness :
    ∃ e, pipelineNormalize [] "zz custom work" (some 80) 65 = some e ∧
      objGet e "laborRate" = JSVal.number (JSNum.num 80) := by
  refine ⟨_, rfl, ?_⟩
  exact (c4_rate_precedence_amended (some 80) 65 [] "zz custom work" _ rfl).2.2.1
    80 rfl (by norm_num)

/-- C5 counterexample: a raw part cost of -50 is kept as -50 (not
clamped to 0), and partsCost becomes -50 instead of the 0 the claimed
max(0, cost) clamp would give. -/
theorem c5_negative_cost_counterexample :
    ∃ e pr,
      normalizeEstimate [("parts", JSVal.array [partObj (JSVal.string "Widget") (-50)])]
        "zz custom work" 65 = some e ∧
      objGet e "parts" = JSVal.array [partObj (JSVal.string "Widget") (-50)] ∧
      priceEstimate e = some pr ∧
      pr.partsCost = JSNum.num (-50) ∧
      ¬ (JSNum.num (-50 : ℚ)) = JSNum.num 0 := by
  exact ⟨_, _, rfl, rfl, rfl, rfl, by decide⟩

/-- C5 amended: each normalized part cost is round(numeric(raw cost,
default 0)) with no zero-clamp, and partsCost is the exact sum of those
rounded costs, so negative raw costs reduce the total. -/
theorem c5_part_cost_no_clamp_amended (raw : JSObj) (d : String) (r : ℚ) (e : JSObj)
    (l : List (JSVal × ℚ))
    (hparts : objGet raw "parts" = JSVal.array (l.map (fun p => partObj p.1 p.2)))
    (hnames : ∀ p ∈ l, truthy p.1 = true)
    (h : normalizeEstimate raw d r = some e) :
    objGet e "parts" =
      JSVal.array (l.map (fun p => partObj p.1 ((roundHalfUp p.2 : ℤ) : ℚ))) ∧
    ∃ pr, priceEstimate e = some pr ∧
      pr.partsCost = JSNum.num ((l.map (fun p => ((roundHalfUp p.2 : ℤ) : ℚ))).sum) := by
  obtain ⟨xs, ps, hxs, hps, hparr⟩ := normalized_parts raw d r e h
  rw [hparts, jsOr_of_truthy (JSVal.array (l.map (fun p => partObj p.1 p.2)))
    (JSVal.array []) rfl] at hxs
  injection hxs with hxs
  subst hxs
  rw [mapOpt_mapPart_partObj l hnames] at hps
  injection hps with hps
  subst hps
  have harr : objGet e "parts" =
      JSVal.array (l.map (fun p => partObj p.1 ((roundHalfUp p.2 : ℤ) : ℚ))) := hparr
  refine ⟨harr, ?_⟩
  have hsum : sumParts (l.map (fun p => partObj p.1 ((roundHalfUp p.2 : ℤ) : ℚ)))
      (JSNum.num 0) = some (JSNum.num
        (0 + ((l.map (fun p => (p.1, ((roundHalfUp p.2 : ℤ) : ℚ)))).map Prod.snd).sum)) := by
    have := sumParts_partObj (l.map (fun p => (p.1, ((roundHalfUp p.2 : ℤ) : ℚ)))) 0
    simpa [List.map_map, Function.comp] using this
  obtain ⟨pr, hpr, -, hpc, -, -, -, -, -⟩ := priceEstimate_of_parts e _ _ harr hsum
  refine ⟨pr, hpr, ?_⟩
  rw [hpc]
  simp [List.map_map, Function.comp_def]

/-- C5 amended witness: a part cost of 5/2 rounds to 3 and sums
exactly. -/
theorem c5_part_cost_no_clamp_amended_witness :
    ∃ e, normalizeEstimate [("parts", JSVal.array [partObj (JSVal.string "A") (5/2)])]
        "zz custom work" 65 = some e ∧
      (objGet e "parts" =
        JSVal.array ([(JSVal.string "A", (5/2 : ℚ))].map
          (fun p => partObj p.1 ((roundHalfUp p.2 : ℤ) : ℚ))) ∧
      ∃ pr, priceEstimate e = some pr ∧
        pr.partsCost = JSNum.num (([(JSVal.string "A", (5/2 : ℚ))].map
          (fun p => ((roundHalfUp p.2 : ℤ) : ℚ))).sum)) := by
  refine ⟨_, rfl, ?_⟩
  exact c5_part_cost_no_clamp_amended
    [("parts", JSVal.array [partObj (JSVal.string "A") (5/2)])]
    "zz custom work" 65 _ [(JSVal.string "A", (5/2 : ℚ))] rfl (by decide) rfl

/-- C6 counterexample: normalization throws (models as none) when the
raw parts field is a truthy non-array, and an unparsable laborHours
string becomes NaN, not 0. -/
theorem c6_normalize_counterexample :
    normalizeEstimate [("parts", JSVal.number (JSNum.num 5))] "zz custom work" 65 = none ∧
    (∃ e, normalizeEstimate [("laborHours", JSVal.string "unknown")] "zz custom work" 65
        = some e ∧
      objGet e "laborHours" = JSVal.number JSNum.nan) ∧
    ¬ (JSNum.nan = JSNum.num 0) := by
  exact ⟨rfl, ⟨_, rfl, rfl⟩, by decide⟩

/-- C6 amended: normalization does not throw provided the raw parts
field is falsy or an array free of null/undefined entries; when no fixed
flat-rate override applies, a missing laborHours is treated as 0 (while
an unparsable one becomes NaN, per the counterexample). -/
theorem c6_normalize_amended (raw : JSObj) (d : String) (r : ℚ)
    (hp : truthy (objGet raw "parts") = false ∨
      ∃ xs, objGet raw "parts" = JSVal.array xs ∧
        ∀ x ∈ xs, ¬ x = JSVal.undef ∧ ¬ x = JSVal.jsNull) :
    ∃ e, normalizeEstimate raw d r = some e ∧
      ((objGet raw "laborHours" = JSVal.undef ∧
        (∀ k0 h0, ¬ getFlatRate FLAT_RATES d = some (k0, FlatHours.fixed h0))) →
        objGet e "laborHours" = JSVal.number (JSNum.num 0)) := by
  have hpre : objGet (normPre raw d r) "parts" = objGet raw "parts" := by
    unfold normPre step4 step3 step1
    rw [objGet_objSet, if_neg (by simp), objGet_objSet, if_neg (by simp)]
    rw [objGet_step2_ne _ _ _ (by simp), objGet_objSet, if_neg (by simp)]
  have hstep5 : ∃ o, step5 (normPre raw d r) = some o := by
    unfold step5
    rw [hpre]
    rcases hp with hfal | ⟨xs, hxs, hels⟩
    · rw [jsOr_of_falsy _ _ hfal]
      exact ⟨_, rfl⟩
    · rw [hxs, jsOr_of_truthy (JSVal.array xs) (JSVal.array []) rfl]
      have : ∀ x ∈ xs, ∃ y, mapPart x = some y :=
        fun x hx => mapPart_total x (hels x hx).1 (hels x hx).2
      obtain ⟨ys, hys⟩ := mapOpt_total mapPart xs this
      show ∃ o, (mapOpt mapPart xs).map
        (fun ps => objSet (normPre raw d r) "parts" (JSVal.array ps)) = some o
      rw [hys]
      exact ⟨_, rfl⟩
  obtain ⟨o, ho⟩ := hstep5
  have he : normalizeEstimate raw d r = some (step6 o) := by
    rw [normalizeEstimate_eq, ho]
    rfl
  refine ⟨step6 o, he, ?_⟩
  intro ⟨hmiss, hnof⟩
  rw [normalized_laborHours_unforced raw d r (step6 o) hnof he, hmiss]
  rfl

/-- C6 amended witness: a raw estimate with no parts and no laborHours
normalizes successfully with laborHours 0. -/
theorem c6_normalize_amended_witness :
    ∃ e, normalizeEstimate [] "zz custom work" 65 = some e ∧
      objGet e "laborHours" = JSVal.number (JSNum.num 0) := by
  obtain ⟨e, he, himp⟩ := c6_normalize_amended [] "zz custom work" 65 (Or.inl rfl)
  refine ⟨e, he, himp ⟨rfl, ?_⟩⟩
  intro k0 h0 hcon
  rw [show getFlatRate FLAT_RATES "zz custom work" = none from by decide] at hcon
  cases hcon

/-- C9 counterexample: a pre-existing laborCost field in the parsed AI
estimate survives normalization and is then overwritten by the derived
laborCost in the response spread, so not every field of the normalized
estimate reaches the response unchanged. -/
theorem c9_frame_counterexample :
    ∃ e pr,
      normalizeEstimate
        [("laborCost", JSVal.number (JSNum.num 999)), ("laborHours", JSVal.number (JSNum.num 1))]
        "zz custom work" 65 = some e ∧
      objGet e "laborCost" = JSVal.number (JSNum.num 999) ∧
      priceEstimate e = some pr ∧
      objGet (respEstimate e pr) "laborCost" = JSVal.number (JSNum.num 65) ∧
      ¬ (JSNum.num (65 : ℚ)) = JSNum.num 999 := by
  exact ⟨_, _, rfl, rfl, rfl, rfl, by decide⟩

/-- C9 amended: the response estimate keeps every field whose name is
not one of the seven derived names unchanged, and sets exactly those
seven derived fields (overwriting same-named fields if present). -/
theorem c9_frame_amended (est : JSObj) (pr : Pricing) :
    (∀ k : String, ¬ k = "laborCost" → ¬ k = "partsCost" → ¬ k = "shopSupplies" →
      ¬ k = "subtotal" → ¬ k = "taxRate" → ¬ k = "recommendedTaxSetaside" →
      ¬ k = "netAfterTax" → objGet (respEstimate est pr) k = objGet est k) ∧
    objGet (respEstimate est pr) "laborCost" = JSVal.number pr.laborCost ∧
    objGet (respEstimate est pr) "partsCost" = JSVal.number pr.partsCost ∧
    objGet (respEstimate est pr) "shopSupplies" = JSVal.number pr.shopSupplies ∧
    objGet (respEstimate est pr) "subtotal" = JSVal.number pr.subtotal ∧
    objGet (respEstimate est pr) "taxRate" = JSVal.number (JSNum.num pr.taxRate) ∧
    objGet (respEstimate est pr) "recommendedTaxSetaside" =
      JSVal.number pr.recommendedTaxSetaside ∧
    objGet (respEstimate est pr) "netAfterTax" = JSVal.number pr.netAfterTax := by
  refine ⟨?_, ?_, ?_, ?_, ?_, ?_, ?_, ?_⟩
  · intro k h1 h2 h3 h4 h5 h6 h7
    simp [respEstimate, objGet_objSet, h1, h2, h3, h4, h5, h6, h7]
  all_goals simp [respEstimate, objGet_objSet]

/-- C9 amended witness: an unrelated field (laborHours) passes through
the response spread unchanged. -/
theorem c9_frame_amended_witness :
    objGet (respEstimate [("laborHours", JSVal.number (JSNum.num 2))]
      (Pricing.mk (JSNum.num 1) (JSNum.num 2) (JSNum.num 3) (JSNum.num 4) 28
        (JSNum.num 5) (JSNum.num 6))) "laborHours" = JSVal.number (JSNum.num 2) :=
  (c9_frame_amended [("laborHours", JSVal.number (JSNum.num 2))]
      (Pricing.mk (JSNum.num 1) (JSNum.num 2) (JSNum.num 3) (JSNum.num 4) 28
        (JSNum.num 5) (JSNum.num 6))).1 "laborHours"
    (by decide) (by decide) (by decide) (by decide) (by decide) (by decide) (by decide)

theorem keyMem_objSet_mono (o : JSObj) (key k : String) (v : JSVal)
    (hk : keyMem o k = true) : keyMem (objSet o key v) k = true := by
  rw [keyMem_objSet, hk]
  simp

theorem keyMem_objSet_self (o : JSObj) (k : String) (v : JSVal) :
    keyMem (objSet o k v) k = true := by
  rw [keyMem_objSet]
  simp

theorem keyMem_step2_mono (o : JSObj) (d : String) (k : String)
    (hk : keyMem o k = true) : keyMem (step2 o d) k = true := by
  unfold step2
  cases getFlatRate FLAT_RATES d with
  | none => exact hk
  | some fr =>
    obtain ⟨k0, h0⟩ := fr
    cases h0 with
    | fixed hh => exact keyMem_objSet_mono _ _ _ _ hk
    | range mn mx => exact hk

/-- Every normalizer output carries the seven fields the pipeline
writes. -/
theorem keyMem_normalized (raw : JSObj) (d : String) (r : ℚ) (e : JSObj)
    (h : normalizeEstimate raw d r = some e) :
    keyMem e "laborRate" = true ∧ keyMem e "laborHours" = true ∧
    keyMem e "shopSuppliesPercent" = true ∧ keyMem e "parts" = true ∧
    keyMem e "tips" = true ∧ keyMem e "warnings" = true ∧
    keyMem e "workSteps" = true := by
  obtain ⟨xs, ps, hxs, hps, he6⟩ := normalizeEstimate_destruct raw d r e h
  subst he6
  unfold step6 setWorkSteps setWarnings setTips normPre step4 step3 step1
  refine ⟨?_, ?_, ?_, ?_, ?_, ?_, ?_⟩
  · exact keyMem_objSet_mono _ _ _ _ (keyMem_objSet_mono _ _ _ _ (keyMem_objSet_mono _ _ _ _
      (keyMem_objSet_mono _ _ _ _ (keyMem_objSet_mono _ _ _ _ (keyMem_objSet_mono _ _ _ _
        (keyMem_step2_mono _ _ _ (keyMem_objSet_self _ _ _)))))))
  · exact keyMem_objSet_mono _ _ _ _ (keyMem_objSet_mono _ _ _ _ (keyMem_objSet_mono _ _ _ _
      (keyMem_objSet_mono _ _ _ _ (keyMem_objSet_self _ _ _))))
  · exact keyMem_objSet_mono _ _ _ _ (keyMem_objSet_mono _ _ _ _ (keyMem_objSet_mono _ _ _ _
      (keyMem_objSet_mono _ _ _ _ (keyMem_objSet_mono _ _ _ _ (keyMem_objSet_self _ _ _)))))
  · exact keyMem_objSet_mono _ _ _ _ (keyMem_objSet_mono _ _ _ _ (keyMem_objSet_mono _ _ _ _
      (keyMem_objSet_self _ _ _)))
  · exact keyMem_objSet_mono _ _ _ _ (keyMem_objSet_mono _ _ _ _ (keyMem_objSet_self _ _ _))
  · exact keyMem_objSet_mono _ _ _ _ (keyMem_objSet_self _ _ _)
  · exact keyMem_objSet_self _ _ _

/-- C8 counterexample: an unparsable laborHours gives NaN after the
first pass, which the second pass turns into 0, so normalize is not
idempotent on this input. -/
theorem c8_idempotence_counterexample :
    ∃ e1 e2,
      normalizeEstimate [("laborHours", JSVal.string "unknown")] "zz custom work" 65 = some e1 ∧
      normalizeEstimate e1 "zz custom work" 65 = some e2 ∧
      objGet e1 "laborHours" = JSVal.number JSNum.nan ∧
      objGet e2 "laborHours" = JSVal.number (JSNum.num 0) ∧
      ¬ (JSNum.nan = JSNum.num 0) := by
  exact ⟨_, _, rfl, rfl, rfl, rfl, by decide⟩

/-- C8 amended: normalize is idempotent on every raw estimate whose
first-pass output has numeric (non-NaN) labor hours and numeric part
costs; re-running the normalizer on such an output changes nothing. -/
theorem c8_idempotence_amended (raw : JSObj) (d : String) (r : ℚ) (e : JSObj)
    (h : normalizeEstimate raw d r = some e)
    (hhours : ∃ q : ℚ, objGet e "laborHours" = JSVal.number (JSNum.num q))
    (hcosts : ∀ ps2, objGet e "parts" = JSVal.array ps2 →
      ∀ nm c, JSVal.object [("name", nm), ("cost", JSVal.number c)] ∈ ps2 →
        ¬ c = JSNum.nan) :
    normalizeEstimate e d r = some e := by
  obtain ⟨q, hLH⟩ := hhours
  obtain ⟨kmLR, kmLH, kmSP, kmParts, kmTips, kmWarn, kmWork⟩ :=
    keyMem_normalized raw d r e h
  have hLR := normalized_laborRate raw d r e h
  have hSP := normalized_suppliesPercent raw d r e h
  obtain ⟨xs, ps, hxs, hps, he6⟩ := normalizeEstimate_destruct raw d r e h
  have hPARTS : objGet e "parts" = JSVal.array ps := by
    rw [he6, objGet_step6_ne _ _ (by simp) (by simp) (by simp), objGet_objSet, if_pos rfl]
  have hT : truthy (objGet e "tips") = true := by
    rw [he6, objGet_step6_tips]
    exact truthy_jsOr _ _ rfl
  have hW : truthy (objGet e "warnings") = true := by
    rw [he6, objGet_step6_warnings]
    exact truthy_jsOr _ _ rfl
  have hK : truthy (objGet e "workSteps") = true := by
    rw [he6, objGet_step6_workSteps]
    exact truthy_jsOr _ _ rfl
  have hfix : ∀ p ∈ ps, mapPart p = some p := by
    intro p hp
    obtain ⟨nm, c, heq, hnm, hc⟩ := mapOpt_mapPart_shape xs ps hps p hp
    rcases hc with hnan | ⟨m, hm⟩
    · subst heq
      exact absurd hnan (hcosts ps hPARTS nm c hp)
    · subst heq
      subst hm
      exact mapPart_fixpoint nm m hnm
  have sA : step1 e r = e := objSet_self e "laborRate" _ kmLR hLR
  have sB : step2 e d = e := by
    unfold step2
    cases hg : getFlatRate FLAT_RATES d with
    | none => rfl
    | some fr =>
      obtain ⟨k0, h0⟩ := fr
      cases h0 with
      | range mn mx => rfl
      | fixed hh =>
        exact objSet_self e "laborHours" _ kmLH
          (normalized_laborHours_fixed_val raw d r e k0 hh hg h)
  have sC : step3 e = e := by
    unfold step3
    rw [hSP, jsNullish_absorb (objGet raw "shopSuppliesPercent")
      (JSVal.number (JSNum.num 7)) ⟨(fun hc => nomatch hc), (fun hc => nomatch hc)⟩]
    exact objSet_self e "shopSuppliesPercent" _ kmSP hSP
  have sD : step4 e = e := by
    unfold step4
    rw [hLH, jsParseFloat_jsOr_num]
    exact objSet_self e "laborHours" _ kmLH hLH
  have sE : step5 e = some e := by
    unfold step5
    rw [hPARTS, jsOr_of_truthy (JSVal.array ps) (JSVal.array []) rfl]
    show (mapOpt mapPart ps).map (fun ps2 => objSet e "parts" (JSVal.array ps2)) = some e
    rw [mapOpt_fixpoint mapPart ps hfix]
    simp only [Option.map_some']
    rw [objSet_self e "parts" (JSVal.array ps) kmParts hPARTS]
  have sF : step6 e = e := by
    have t1 : setTips e = e := by
      unfold setTips
      rw [jsOr_of_truthy _ _ hT]
      exact objSet_self e "tips" _ kmTips rfl
    have t2 : setWarnings e = e := by
      unfold setWarnings
      rw [jsOr_of_truthy _ _ hW]
      exact objSet_self e "warnings" _ kmWarn rfl
    have t3 : setWorkSteps e = e := by
      unfold setWorkSteps
      rw [jsOr_of_truthy _ _ hK]
      exact objSet_self e "workSteps" _ kmWork rfl
    unfold step6
    rw [t1, t2, t3]
  rw [normalizeEstimate_eq]
  unfold normPre
  rw [sA, sB, sC, sD, sE]
  simp only [Option.map_some']
  rw [sF]

/-- C8 amended witness: a numeric estimate with no parts is a fixed
point of a second normalization pass. -/
theorem c8_idempotence_amended_witness :
    ∃ e, normalizeEstimate [("laborHours", JSVal.number (JSNum.num 2))]
        "zz custom work" 65 = some e ∧
      normalizeEstimate e "zz custom work" 65 = some e := by
  refine ⟨_, rfl, ?_⟩
  apply c8_idempotence_amended [("laborHours", JSVal.number (JSNum.num 2))]
    "zz custom work" 65 _ rfl ⟨2, rfl⟩
  intro ps hps nm c hmem
  obtain ⟨xs, ps2, hxs, hps2, hparr⟩ :=
    normalized_parts [("laborHours", JSVal.number (JSNum.num 2))] "zz custom work" 65 _ rfl
  have hxs0 : xs = [] := by
    have h2 := hxs
    rw [show jsOr (objGet [("laborHours", JSVal.number (JSNum.num 2))] "parts")
      (JSVal.array []) = JSVal.array [] from rfl] at h2
    injection h2 with h2
    exact h2.symm
  subst hxs0
  have hps20 : ps2 = [] := by
    have h2 := hps2
    rw [show mapOpt mapPart [] = some [] from rfl] at h2
    injection h2 with h2
    exact h2.symm
  subst hps20
  rw [hparr] at hps
  injection hps with hps
  rw [← hps] at hmem
  exact absurd hmem (List.not_mem_nil _)
